import Mathlib

set_option autoImplicit false

/-!
Shallow embedding of the fly-mcp MCP request dispatch and tool-execution
pipeline, translated from the Go sources:

  - pkg/mcp types (MCPRequest, MCPResponse, MCPError) and the Handler
    (HandleRequest, handleToolsCall, sendResponse, sendError);
  - pkg/auth Manager (ValidatePermissions, ExtractUserFromContext,
    ValidateRequest);
  - pkg/fly Client (GetAppStatus, RestartApp) over an abstract adapter
    environment standing for the external Fly.io API;
  - the ping tool and the fly_restart tool (PingTool.Execute,
    AppRestartTool.Execute).

Effects that live outside the pipeline (wall-clock time, the external
API, the ambient request context) are passed in explicitly as
environment records; JSON dynamic values (Go interface values produced
by encoding/json) are modelled by the inductive `JsonVal`.
-/

namespace FlyMCP

/-- JSON-like dynamic values, the shallow counterpart of Go values decoded
by encoding/json into an empty-interface: `obj` stands for
map-of-string-to-any, and a missing field is represented by the absence of
the key.  Go type assertions such as `v.(string)` become pattern matches
on the corresponding constructor. -/
inductive JsonVal where
  | null
  | boolean (b : Bool)
  | num (n : Int)
  | str (s : String)
  | arr (elems : List JsonVal)
  | obj (fields : List (String × JsonVal))

/-- Argument maps (`map[string]interface` values in Go); Go map indexing
`m[k]` with its ok-flag is `Args.lookup k` returning an `Option`. -/
abbrev Args := List (String × JsonVal)

/-- A content block of a tool result (pkg/interfaces ContentBlock): fields
Type, Text, Data; the latter two are omitempty strings whose Go zero value
is the empty string. -/
structure ContentBlock where
  type : String
  text : String
  data : String
deriving Repr, DecidableEq

/-- Result of a tool execution (pkg/interfaces ToolResult). -/
structure ToolResult where
  content : List ContentBlock
  isError : Bool
deriving Repr, DecidableEq

/-- An MCP protocol request (pkg/mcp MCPRequest).  `id` and `params` are
Go interface fields with omitempty: `none` is the absent / nil case. -/
structure MCPRequest where
  jsonrpc : String
  id : Option JsonVal
  method : String
  params : Option JsonVal

/-- The data payload the Handler attaches to error responses: the Go map
with keys "method" and "error" built in HandleRequest. -/
structure ErrorData where
  method : String
  error : String
deriving Repr, DecidableEq

/-- An MCP protocol error (pkg/mcp MCPError). -/
structure MCPError where
  code : Int
  message : String
  data : Option ErrorData
deriving Repr, DecidableEq

/-- The result payloads the Handler can place in a response's Result
field, one constructor per handler that succeeds.  `toolCallResult`
carries the (possibly nil) ToolResult pointer returned by the executed
tool; the Go field holds that pointer, so the Result field is present on
this path even when the pointer is nil. -/
inductive ResultVal where
  | initializeResult
  | toolsListResult (descriptors : List (String × String × JsonVal))
  | toolCallResult (r : Option ToolResult)
  | resourcesListResult

/-- An MCP protocol response (pkg/mcp MCPResponse); `id`, `result`,
`error` are omitempty, `none` meaning the field is absent on the wire. -/
structure MCPResponse where
  jsonrpc : String
  id : Option JsonVal
  result : Option ResultVal
  error : Option MCPError

/-- A registered tool as the dispatcher sees it: its three metadata
methods plus Execute, the latter returning the Go pair of a (possibly
nil) ToolResult pointer and a (possibly nil) error, with `none` for nil
on both sides. -/
structure Tool where
  name : String
  description : String
  inputSchema : JsonVal
  execute : Args → Option ToolResult × Option String

/-- The Handler's tool registry, the map built by registerTools: keys are
tool names, values the tools. -/
abbrev Registry := List (String × Tool)

namespace Handler

/-- Handler.sendError: builds the error response.  Note the source sets
JSONRPC and Error only — the response ID is left at its zero value (nil),
so on every error path the envelope carries no id. -/
def sendError (code : Int) (message : String) (data : Option ErrorData) : MCPResponse :=
  { jsonrpc := "2.0", id := none, result := none
    error := some { code := code, message := message, data := data } }

/-- Handler.handleInitialize (renamed so the identifier does not end in a
reserved word): returns static metadata, echoing the request id. -/
def handleInitializeMethod (req : MCPRequest) : Except String MCPResponse :=
  .ok { jsonrpc := "2.0", id := req.id, result := some .initializeResult, error := none }

/-- Handler.handleToolsList: enumerates the registry, building one
descriptor per tool from its Name, Description and InputSchema. -/
def handleToolsList (tools : Registry) (req : MCPRequest) : Except String MCPResponse :=
  let descriptors := tools.map (fun kv => (kv.2.name, kv.2.description, kv.2.inputSchema))
  .ok { jsonrpc := "2.0", id := req.id
        result := some (.toolsListResult descriptors), error := none }

/-- Handler.handleToolsCall: asserts params to a map, extracts the tool
name (required string) and arguments (defaulting to an empty map), looks
the tool up in the registry, executes it and wraps a non-nil tool error;
on success echoes the request id with the tool result as the payload. -/
def handleToolsCall (tools : Registry) (req : MCPRequest) : Except String MCPResponse :=
  match req.params with
  | some (.obj params) =>
    match params.lookup "name" with
    | some (.str toolName) =>
      let arguments : Args :=
        match params.lookup "arguments" with
        | some (.obj m) => m
        | _ => []
      match tools.lookup toolName with
      | none => .error ("tool not found: " ++ toolName)
      | some tool =>
        -- Go destructures the call into result and err, then branches on
        -- err; the timing/logging wrapper has no effect on the response
        let outcome := tool.execute arguments
        let result := outcome.1
        match outcome.2 with
        | some e => .error ("tool execution failed: " ++ e)
        | none =>
          .ok { jsonrpc := "2.0", id := req.id
                result := some (.toolCallResult result), error := none }
    | _ => .error "tool name is required"
  | _ => .error "invalid parameters for tools/call"

/-- Handler.handleResourcesList: stub returning an empty collection. -/
def handleResourcesList (req : MCPRequest) : Except String MCPResponse :=
  .ok { jsonrpc := "2.0", id := req.id, result := some .resourcesListResult, error := none }

/-- Handler.handleResourcesRead: stub that always fails. -/
def handleResourcesRead (req : MCPRequest) : Except String MCPResponse :=
  let _ := req
  .error "resources/read not implemented"

/-- The method switch of Handler.HandleRequest, yielding either the
handler's response or the Go error that the surrounding code maps to a
-32601 error envelope. -/
def dispatch (tools : Registry) (req : MCPRequest) : Except String MCPResponse :=
  match req.method with
  | "initialize" => handleInitializeMethod req
  | "tools/list" => handleToolsList tools req
  | "tools/call" => handleToolsCall tools req
  | "resources/list" => handleResourcesList req
  | "resources/read" => handleResourcesRead req
  | m => .error ("unsupported method: " ++ m)

/-- Handler.HandleRequest: `body` is the decode outcome of the request
body (`none` when json decoding fails).  Decode failure is answered with
a -32700 Parse error; a handler failure with a -32601 envelope whose
data carries the method and the error text; a handler success is sent
back unchanged. -/
def HandleRequest (tools : Registry) (body : Option MCPRequest) : MCPResponse :=
  match body with
  | none => sendError (-32700) "Parse error" none
  | some req =>
    match dispatch tools req with
    | .error e =>
      sendError (-32601) "Method not found" (some { method := req.method, error := e })
    | .ok response => response

end Handler

/-- The configured permission mapping, config.Security.Permissions in Go
(a map from user id to a list of permission strings), modelled as an
association list with Go-map lookup via `List.lookup`. -/
abbrev PermTable := List (String × List String)

namespace Manager

/-- Manager.ValidatePermissions: resolves the permission list for
`userID`, falling back to the "default" entry only when the user has no
entry of their own; grants (returns `none`, the nil error) exactly when
the resolved list contains `action:resource`, `action:*` or `*`; denies
with a descriptive error string otherwise, and with a
"no permissions configured" error when neither entry exists. -/
def ValidatePermissions (perms : PermTable) (userID action resource : String) :
    Option String :=
  match perms.lookup userID with
  | none =>
    match perms.lookup "default" with
    | none => some ("no permissions configured for user " ++ userID)
    | some permissions =>
      if permissions.any (fun p =>
            p == action ++ ":" ++ resource || p == action ++ ":*" || p == "*") then
        none
      else
        some ("insufficient permissions: user " ++ userID ++ " cannot " ++ action
              ++ " on " ++ resource)
  | some permissions =>
    if permissions.any (fun p =>
          p == action ++ ":" ++ resource || p == action ++ ":*" || p == "*") then
      none
    else
      some ("insufficient permissions: user " ++ userID ++ " cannot " ++ action
            ++ " on " ++ resource)

/-- Manager.ExtractUserFromContext: the request context's "user_id" value
(`none` when absent or not a string) or the "anonymous" fallback; the Go
function's error component is always nil and is dropped here. -/
def ExtractUserFromContext (ctxUserID : Option String) : String :=
  match ctxUserID with
  | some userID => if userID ≠ "" then userID else "anonymous"
  | none => "anonymous"

/-- Manager.ValidateRequest: extracts the user from the context (never
fails) and validates permissions; the security-event logging calls have
no effect on the returned value. -/
def ValidateRequest (perms : PermTable) (ctxUserID : Option String)
    (action resource : String) : Option String :=
  let userID := ExtractUserFromContext ctxUserID
  ValidatePermissions perms userID action resource

end Manager

/-- The fields of fly-go's AppCompact that pkg/fly Client.GetAppStatus
reads (Status, Deployed, Hostname). -/
structure AppCompact where
  status : String
  deployed : Bool
  hostname : String
deriving Repr, DecidableEq

/-- A machine as returned by the Machines API; GetAppStatus and
RestartApp read its ID and State. -/
structure Machine where
  id : String
  state : String
deriving Repr, DecidableEq

/-- pkg/fly AppStatus.  MachineStates is Go's map from state name to
count, modelled as an association list; UpdatedAt (time.Now at response
build time) is an abstract clock value. -/
structure AppStatus where
  appName : String
  status : String
  deployed : Bool
  machineCount : Nat
  machineStates : List (String × Nat)
  hostname : String
  updatedAt : Nat
deriving Repr, DecidableEq

/-- The external Fly.io adapter boundary as pkg/fly Client sees it: the
GraphQL app lookup, the Machines API machine enumeration, the per-machine
restart call (returning `none` for success, `some msg` for a failure),
and the ambient clock. -/
structure FlyEnv where
  getAppCompact : String → Except String AppCompact
  listMachines : String → Except String (List Machine)
  restartMachine : String → String → Option String
  now : Nat

/-- One step of Go's `machineStates[machine.State]++` on the
association-list representation of the map. -/
def bumpState (m : List (String × Nat)) (s : String) : List (String × Nat) :=
  match m with
  | [] => [(s, 1)]
  | (k, v) :: rest => if k == s then (k, v + 1) :: rest else (k, v) :: bumpState rest s

/-- The machine-state counting loop of Client.GetAppStatus. -/
def countStates (machines : List Machine) : List (String × Nat) :=
  machines.foldl (fun acc machine => bumpState acc machine.state) []

namespace Client

/-- pkg/fly Client.GetAppStatus: a failing app lookup fails the call; a
failing machine enumeration degrades to a status with zero machines and
an empty (freshly made) state map; otherwise machines are counted. -/
def GetAppStatus (env : FlyEnv) (appName : String) : Except String AppStatus :=
  match env.getAppCompact appName with
  | .error e => .error ("failed to get app status for " ++ appName ++ ": " ++ e)
  | .ok app =>
    match env.listMachines appName with
    | .error _ =>
      .ok { appName := appName, status := app.status, deployed := app.deployed
            machineCount := 0, machineStates := [], hostname := app.hostname
            updatedAt := env.now }
    | .ok machines =>
      .ok { appName := appName, status := app.status, deployed := app.deployed
            machineCount := machines.length, machineStates := countStates machines
            hostname := app.hostname, updatedAt := env.now }

/-- The per-machine loop body of Client.RestartApp: the accumulator is
the pair of the collected restartErrors list and the successCount. -/
def restartStep (env : FlyEnv) (appName : String) (acc : List String × Nat)
    (machine : Machine) : List String × Nat :=
  match env.restartMachine appName machine.id with
  | some e => (acc.1 ++ ["machine " ++ machine.id ++ ": " ++ e], acc.2)
  | none => (acc.1, acc.2 + 1)

/-- pkg/fly Client.RestartApp: fails when the machine list cannot be
fetched or is empty; restarts every machine, collecting failures; fails
only when not a single machine restarted, and otherwise returns nil even
when some machines failed (partial success is only logged). -/
def RestartApp (env : FlyEnv) (appName : String) : Option String :=
  match env.listMachines appName with
  | .error e => some ("failed to get machines for app " ++ appName ++ ": " ++ e)
  | .ok machines =>
    if machines.length == 0 then
      some ("no machines found for app " ++ appName)
    else
      let outcome := machines.foldl (restartStep env appName) ([], 0)
      let restartErrors := outcome.1
      let successCount := outcome.2
      if restartErrors.length > 0 then
        if successCount == 0 then
          some ("failed to restart any machines: " ++ String.intercalate ", " restartErrors)
        else
          none
      else
        none

end Client

namespace PingTool

/-- The default message of the ping tool. -/
def defaultMessage : String := "Hello from fly-mcp!"

/-- pkg/mcp PingTool.Execute: reads the optional "message" argument
(falling back to the default when it is absent, not a string, or empty),
and answers with a single text content block carrying the message and
the current timestamp (`now`, the formatted wall-clock time, is an
explicit input here).  Always a non-error result and a nil Go error. -/
def Execute (now : String) (args : Args) : Option ToolResult × Option String :=
  let message :=
    match args.lookup "message" with
    | some (.str msg) => if msg ≠ "" then msg else defaultMessage
    | _ => defaultMessage
  let response := "Pong! " ++ message ++ "\nTimestamp: " ++ now
  (some { content := [{ type := "text", text := response, data := "" }]
          isError := false }, none)

end PingTool

/-- Everything AppRestartTool.Execute reaches outside its arguments: the
configured permission table, the request context's user id value, and
the Fly.io adapter boundary used by the Client methods it calls. -/
structure RestartEnv where
  perms : PermTable
  ctxUserID : Option String
  fly : FlyEnv

/-- The outcome of one AppRestartTool.Execute call: the returned
(ToolResult, error) pair plus whether the external RestartApp adapter
call was reached (the side effect the safety gate must prevent). -/
structure RestartOutcome where
  result : Option ToolResult
  goError : Option String
  restartCalled : Bool

namespace AppRestartTool

/-- The guidance text returned when the confirm flag is missing or not
true (the braces of the embedded JSON example are written with escape
codes). -/
def confirmGuidanceText (appName : String) : String :=
  "⚠️ **Restart Confirmation Required**\n\nRestarting an application will cause temporary downtime. To proceed, you must set `confirm: true` in your request.\n\nExample:\n```json\n\x7b\n  \"app_name\": \"" ++ appName ++ "\",\n  \"confirm\": true,\n  \"reason\": \"Applying configuration changes\"\n\x7d\n```"

/-- The success response text built after a restart was initiated. -/
def successText (appName : String) (statusBefore : AppStatus)
    (reason userID : String) : String :=
  "✅ **Application \x27" ++ appName ++ "\x27 Restart Initiated**\n\n"
  ++ "## Restart Summary\n"
  ++ "- **Application**: " ++ appName ++ "\n"
  ++ "- **Status Before**: " ++ statusBefore.status ++ "\n"
  ++ "- **Machines Restarted**: " ++ toString statusBefore.machineCount ++ "\n"
  ++ (if reason ≠ "" then "- **Reason**: " ++ reason ++ "\n" else "")
  ++ "- **Initiated By**: " ++ userID ++ "\n"
  ++ "\n## What Happens Next\n"
  ++ "1. 🔄 All machines are being restarted\n"
  ++ "2. ⏱️ There may be brief downtime during the restart\n"
  ++ "3. 🟢 Machines will come back online automatically\n"
  ++ "4. 🌐 Traffic will resume once machines are healthy\n"
  ++ "\n## Monitoring the Restart\n"
  ++ "- Use `fly_status` to check the current status\n"
  ++ "- Use `fly_logs` to monitor the restart process\n"
  ++ "- The restart typically completes within 1-2 minutes\n"
  ++ (if statusBefore.hostname ≠ "" then
        "\n## Access\n" ++ "- **URL**: https://" ++ statusBefore.hostname ++ "\n"
        ++ "- The application should be accessible at this URL once the restart completes\n"
      else "")

/-- pkg/tools AppRestartTool.Execute.  In source order: the
authorization gate (ValidateRequest for action "restart" on resource
"app"), the app_name argument check (Go's failed type assertion leaves
the zero-value empty string, so a missing or non-string app_name falls
into the same empty-name branch), the confirm safety gate (a failed
assertion leaves confirm false), the pre-restart GetAppStatus check, and
only then the RestartApp adapter call.  Every branch returns a non-nil
ToolResult and a nil Go error. -/
def Execute (env : RestartEnv) (args : Args) : RestartOutcome :=
  match Manager.ValidateRequest env.perms env.ctxUserID "restart" "app" with
  | some e =>
    { result := some { content := [{ type := "text"
                                     text := "Permission denied: " ++ e, data := "" }]
                       isError := true }
      goError := none, restartCalled := false }
  | none =>
    let appName :=
      match args.lookup "app_name" with
      | some (.str s) => s
      | _ => ""
    if appName = "" then
      { result := some { content := [{ type := "text"
                                       text := "Error: app_name is required and must be a non-empty string"
                                       data := "" }]
                         isError := true }
        goError := none, restartCalled := false }
    else
      let confirm :=
        match args.lookup "confirm" with
        | some (.boolean b) => b
        | _ => false
      if !confirm then
        { result := some { content := [{ type := "text"
                                         text := confirmGuidanceText appName, data := "" }]
                           isError := true }
          goError := none, restartCalled := false }
      else
        let reason :=
          match args.lookup "reason" with
          | some (.str r) => r
          | _ => ""
        let userID := Manager.ExtractUserFromContext env.ctxUserID
        match Client.GetAppStatus env.fly appName with
        | .error e =>
          { result := some { content := [{ type := "text"
                                           text := "Failed to check app status before restart for \x27" ++ appName ++ "\x27: " ++ e ++ "\n\nThe restart was not performed for safety reasons."
                                           data := "" }]
                             isError := true }
            goError := none, restartCalled := false }
        | .ok statusBefore =>
          match Client.RestartApp env.fly appName with
          | some e =>
            { result := some { content := [{ type := "text"
                                             text := "❌ **Restart Failed**\n\nFailed to restart app \x27" ++ appName ++ "\x27: " ++ e ++ "\n\nThe application may still be in its previous state. You can check the status using `fly_status`."
                                             data := "" }]
                               isError := true }
              goError := none, restartCalled := true }
          | none =>
            { result := some { content := [{ type := "text"
                                             text := successText appName statusBefore reason userID
                                             data := "" }]
                               isError := false }
              goError := none, restartCalled := true }

end AppRestartTool

/-- Specification-side view of the restart loop: the restartErrors list
it accumulates, one entry per machine whose restart call failed. -/
def collectRestartErrors (env : FlyEnv) (appName : String) : List Machine → List String
  | [] => []
  | machine :: rest =>
    match env.restartMachine appName machine.id with
    | some e => ("machine " ++ machine.id ++ ": " ++ e)
        :: collectRestartErrors env appName rest
    | none => collectRestartErrors env appName rest

/-- Specification-side view of the restart loop: its successCount, the
number of machines whose restart call succeeded. -/
def restartSuccessCount (env : FlyEnv) (appName : String) : List Machine → Nat
  | [] => 0
  | machine :: rest =>
    match env.restartMachine appName machine.id with
    | some _ => restartSuccessCount env appName rest
    | none => restartSuccessCount env appName rest + 1

/-- The message the ping tool ends up using: the "message" argument when
it is a non-empty string, the default otherwise (same match as in
PingTool.Execute, factored out for the statements about it). -/
def msgArg (args : Args) : String :=
  match args.lookup "message" with
  | some (.str msg) => if msg ≠ "" then msg else PingTool.defaultMessage
  | _ => PingTool.defaultMessage

/-! Concrete sample environments and inputs used by witnesses and
counterexamples. -/

/-- A sample registry holding the ping tool (Execute partially applied to
a fixed formatted timestamp). -/
def sampleRegistry : Registry :=
  [("ping", { name := "ping"
              description := "A simple ping tool that responds with pong and the current timestamp"
              inputSchema := .obj []
              execute := PingTool.Execute "2025-01-02T03:04:05Z" })]

/-- A well-formed tools/call request, with id 1, naming a tool that is
not registered. -/
def unknownToolReq : MCPRequest :=
  { jsonrpc := "2.0", id := some (.num 1), method := "tools/call"
    params := some (.obj [("name", .str "fly_nope")]) }

/-- A Fly adapter environment in which every call succeeds and the app
has one machine. -/
def flyEnvHealthy : FlyEnv :=
  { getAppCompact := fun _ => .ok { status := "running", deployed := true
                                    hostname := "my-app.fly.dev" }
    listMachines := fun _ => .ok [{ id := "m1", state := "started" }]
    restartMachine := fun _ _ => none
    now := 17 }

/-- A Fly adapter environment in which the basic app lookup itself
fails. -/
def flyEnvStatusDown : FlyEnv :=
  { getAppCompact := fun _ => .error "api unreachable"
    listMachines := fun _ => .error "api unreachable"
    restartMachine := fun _ _ => none
    now := 17 }

/-- A Fly adapter environment in which the app lookup succeeds but the
machine enumeration fails. -/
def flyEnvMachinesDown : FlyEnv :=
  { getAppCompact := fun _ => .ok { status := "running", deployed := true
                                    hostname := "demo.fly.dev" }
    listMachines := fun _ => .error "machines api down"
    restartMachine := fun _ _ => none
    now := 17 }

/-- A Fly adapter environment with three machines of which exactly one
(m1) fails to restart: the spec scenario of 2 of 3 units succeeding. -/
def flyEnvPartialRestart : FlyEnv :=
  { getAppCompact := fun _ => .ok { status := "running", deployed := true
                                    hostname := "demo.fly.dev" }
    listMachines := fun _ => .ok [{ id := "m1", state := "started" },
                                  { id := "m2", state := "started" },
                                  { id := "m3", state := "started" }]
    restartMachine := fun _ machineID => if machineID == "m1" then some "timeout" else none
    now := 17 }

/-- A restart-tool environment whose permission table grants everything
to the default user and whose adapter is healthy. -/
def restartEnvAllowed : RestartEnv :=
  { perms := [("default", ["*"])], ctxUserID := none, fly := flyEnvHealthy }

/-- A restart-tool environment that authorizes the caller but whose
pre-restart status check fails. -/
def restartEnvStatusDown : RestartEnv :=
  { perms := [("default", ["*"])], ctxUserID := none, fly := flyEnvStatusDown }

/-- Arguments for fly_restart with a valid app_name and no confirm key. -/
def argsNoConfirm : Args := [("app_name", .str "my-app")]

/-- Arguments for fly_restart with a valid app_name and confirm set to
true. -/
def argsConfirm : Args := [("app_name", .str "my-app"), ("confirm", .boolean true)]

/-- A tools/list request with id 7. -/
def toolsListReq : MCPRequest :=
  { jsonrpc := "2.0", id := some (.num 7), method := "tools/list", params := none }

/-- The concrete error object produced for `unknownToolReq` against
`sampleRegistry`. -/
def sampleMethodNotFoundErr : MCPError :=
  { code := -32601, message := "Method not found"
    data := some { method := "tools/call", error := "tool not found: fly_nope" } }

/-! Helper lemmas shared by the claim theorems. -/

/-- Every response a successful handler produces echoes the request id,
has a result and no error. -/
theorem dispatch_ok_shape (tools : Registry) (req : MCPRequest) (resp : MCPResponse)
    (h : Handler.dispatch tools req = .ok resp) :
    resp.jsonrpc = "2.0" ∧ resp.id = req.id ∧ (∃ v, resp.result = some v)
      ∧ resp.error = none := by
  unfold Handler.dispatch at h
  split at h
  · unfold Handler.handleInitializeMethod at h
    cases h
    exact ⟨rfl, rfl, ⟨_, rfl⟩, rfl⟩
  · unfold Handler.handleToolsList at h
    cases h
    exact ⟨rfl, rfl, ⟨_, rfl⟩, rfl⟩
  · unfold Handler.handleToolsCall at h
    split at h
    · split at h
      · split at h
        · split at h
          · cases h
          · dsimp only at h
            split at h
            · cases h
            · cases h
              exact ⟨rfl, rfl, ⟨_, rfl⟩, rfl⟩
        · split at h
          · cases h
          · dsimp only at h
            split at h
            · cases h
            · cases h
              exact ⟨rfl, rfl, ⟨_, rfl⟩, rfl⟩
      · cases h
    · cases h
  · unfold Handler.handleResourcesList at h
    cases h
    exact ⟨rfl, rfl, ⟨_, rfl⟩, rfl⟩
  · unfold Handler.handleResourcesRead at h
    cases h
  · cases h

/-- A decoded request is answered either by the -32601 error envelope
wrapping the handler failure, or by the handler's own response. -/
theorem handleRequest_decoded_cases (tools : Registry) (req : MCPRequest) :
    (∃ e, Handler.HandleRequest tools (some req) =
        Handler.sendError (-32601) "Method not found"
          (some { method := req.method, error := e }))
    ∨ (∃ resp, Handler.dispatch tools req = .ok resp
        ∧ Handler.HandleRequest tools (some req) = resp) := by
  have hh : Handler.HandleRequest tools (some req) =
      match Handler.dispatch tools req with
      | .error e => Handler.sendError (-32601) "Method not found"
          (some { method := req.method, error := e })
      | .ok response => response := rfl
  rcases hd : Handler.dispatch tools req with e | resp
  · exact Or.inl ⟨e, by rw [hh, hd]⟩
  · exact Or.inr ⟨resp, rfl, by rw [hh, hd]⟩

/-- The permission-loop check grants exactly when one of the three
accepted strings occurs in the list. -/
theorem grantCheck_iff (ps : List String) (required star : String) :
    ps.any (fun p => p == required || p == star || p == "*") = true ↔
      required ∈ ps ∨ star ∈ ps ∨ "*" ∈ ps := by
  simp only [List.any_eq_true, Bool.or_eq_true, beq_iff_eq]
  constructor
  · rintro ⟨x, hx, (rfl | rfl) | rfl⟩
    · exact Or.inl hx
    · exact Or.inr (Or.inl hx)
    · exact Or.inr (Or.inr hx)
  · rintro (hx | hx | hx)
    · exact ⟨_, hx, Or.inl (Or.inl rfl)⟩
    · exact ⟨_, hx, Or.inl (Or.inr rfl)⟩
    · exact ⟨_, hx, Or.inr rfl⟩

/-- C3: ValidatePermissions grants access if and only if the permission
set resolved for the user (the user's own entry, else the "default"
entry) contains action:resource, action:*, or *; with neither entry the
call is always denied; a user with permission set read:apps is granted
(read, apps) and denied (restart, apps); a user with set * is granted
every action on every resource. -/
theorem validatePermissions_spec :
    (∀ (perms : PermTable) (userID action resource : String),
      (Manager.ValidatePermissions perms userID action resource = none ↔
        ∃ ps, (perms.lookup userID = some ps ∨
                (perms.lookup userID = none ∧ perms.lookup "default" = some ps)) ∧
          ((action ++ ":" ++ resource) ∈ ps ∨ (action ++ ":*") ∈ ps ∨ "*" ∈ ps)))
    ∧ (∀ (perms : PermTable) (userID action resource : String),
        perms.lookup userID = none → perms.lookup "default" = none →
        Manager.ValidatePermissions perms userID action resource ≠ none)
    ∧ Manager.ValidatePermissions [("alice", ["read:apps"])] "alice" "read" "apps" = none
    ∧ Manager.ValidatePermissions [("alice", ["read:apps"])] "alice" "restart" "apps" ≠ none
    ∧ (∀ action resource,
        Manager.ValidatePermissions [("root", ["*"])] "root" action resource = none) := by
  refine ⟨?_, ?_, by decide, by decide, ?_⟩
  · intro perms userID action resource
    unfold Manager.ValidatePermissions
    split
    next hu =>
      split
      next hd =>
        rw [hu, hd]
        simp
      next permissions hd =>
        rw [hu, hd]
        cases hany : permissions.any (fun p =>
            p == action ++ ":" ++ resource || p == action ++ ":*" || p == "*") with
        | false =>
          have hno : ¬ ((action ++ ":" ++ resource) ∈ permissions ∨
              (action ++ ":*") ∈ permissions ∨ "*" ∈ permissions) := by
            rw [← grantCheck_iff]
            simp [hany]
          simp only [hany, Bool.false_eq_true, if_false]
          constructor
          · intro h; cases h
          · rintro ⟨ps, hps, hg⟩
            rcases hps with hps | ⟨-, hps⟩
            · cases hps
            · cases hps; exact absurd hg hno
        | true =>
          simp only [hany, if_true]
          constructor
          · intro _
            exact ⟨permissions, Or.inr ⟨trivial, rfl⟩, (grantCheck_iff _ _ _).mp hany⟩
          · intro _; trivial
    next permissions hu =>
      rw [hu]
      cases hany : permissions.any (fun p =>
          p == action ++ ":" ++ resource || p == action ++ ":*" || p == "*") with
      | false =>
        have hno : ¬ ((action ++ ":" ++ resource) ∈ permissions ∨
            (action ++ ":*") ∈ permissions ∨ "*" ∈ permissions) := by
          rw [← grantCheck_iff]
          simp [hany]
        simp only [hany, Bool.false_eq_true, if_false]
        constructor
        · intro h; cases h
        · rintro ⟨ps, hps, hg⟩
          rcases hps with hps | ⟨hps, -⟩
          · cases hps; exact absurd hg hno
          · cases hps
      | true =>
        simp only [hany, if_true]
        constructor
        · intro _
          exact ⟨permissions, Or.inl rfl, (grantCheck_iff _ _ _).mp hany⟩
        · intro _; trivial
  · intro perms userID action resource hu hd
    unfold Manager.ValidatePermissions
    rw [hu, hd]
    simp
  · intro action resource
    unfold Manager.ValidatePermissions
    simp [List.lookup]

/-- C9: a user-specific permission entry completely shadows the default
entry — with an entry present the decision only depends on that entry's
list — and a user configured with the empty list is denied everything,
even when the default entry holds the wildcard. -/
theorem userEntry_shadows_default :
    (∀ (perms1 perms2 : PermTable) (userID action resource : String) (ps : List String),
       perms1.lookup userID = some ps → perms2.lookup userID = some ps →
       Manager.ValidatePermissions perms1 userID action resource =
         Manager.ValidatePermissions perms2 userID action resource)
    ∧ (∀ action resource,
        Manager.ValidatePermissions [("bob", []), ("default", ["*"])] "bob" action resource
          ≠ none) := by
  constructor
  · intro perms1 perms2 userID action resource ps h1 h2
    unfold Manager.ValidatePermissions
    rw [h1, h2]
  · intro action resource
    unfold Manager.ValidatePermissions
    simp [List.lookup]

/-- C9 witness: instantiating the shadowing statement at two concrete
tables with the same entry for the user but different defaults. -/
theorem userEntry_shadows_default_witness :
    Manager.ValidatePermissions [("bob", []), ("default", ["*"])] "bob" "read" "apps" =
      Manager.ValidatePermissions [("bob", [])] "bob" "read" "apps"
    ∧ Manager.ValidatePermissions [("bob", []), ("default", ["*"])] "bob" "read" "apps" ≠ none :=
  ⟨userEntry_shadows_default.1 [("bob", []), ("default", ["*"])] [("bob", [])]
      "bob" "read" "apps" [] (by decide) (by decide),
   userEntry_shadows_default.2 "read" "apps"⟩

/-- C3 witness: the characterization applied at a concrete table, user
and action, together with the concrete denial when no entry exists. -/
theorem validatePermissions_spec_witness :
    Manager.ValidatePermissions [("alice", ["read:apps"])] "alice" "read" "apps" = none
    ∧ Manager.ValidatePermissions [] "carol" "read" "apps" ≠ none :=
  ⟨validatePermissions_spec.2.2.1,
   validatePermissions_spec.2.1 [] "carol" "read" "apps" rfl rfl⟩

/-- C1 counterexample: a decoded tools/call request carrying id 1 whose
handler fails (unknown tool) is answered through sendError, which never
copies the id — the response id differs from the request id on this
error path, refuting the claim that error paths echo the id. -/
theorem responseId_errorPath_counterexample :
    (Handler.HandleRequest sampleRegistry (some unknownToolReq)).id ≠ unknownToolReq.id := by
  intro h
  exact absurd (congrArg Option.isSome h) (by decide)

/-- C1 (amended): on every success path the response envelope carries the
request's id, but on every error path of a decoded request the dispatcher
replies via sendError, which omits the id entirely (the two agree only
when the request id itself was absent). -/
theorem responseId_echo :
    ∀ (tools : Registry) (req : MCPRequest),
      ((Handler.HandleRequest tools (some req)).error = none →
        (Handler.HandleRequest tools (some req)).id = req.id)
      ∧ ((Handler.HandleRequest tools (some req)).error ≠ none →
        (Handler.HandleRequest tools (some req)).id = none) := by
  intro tools req
  rcases handleRequest_decoded_cases tools req with ⟨e, hE⟩ | ⟨resp, hok, hE⟩
  · rw [hE]
    constructor
    · intro h
      simp [Handler.sendError] at h
    · intro _
      rfl
  · rw [hE]
    obtain ⟨-, hid, -, herr⟩ := dispatch_ok_shape tools req resp hok
    constructor
    · intro _
      exact hid
    · intro hne
      exact absurd herr hne

/-- C1 witness (for the amended statement): the success branch applied to
a tools/list request with id 7, and the error branch applied to the
unknown-tool request. -/
theorem responseId_echo_witness :
    (Handler.HandleRequest sampleRegistry (some toolsListReq)).id = toolsListReq.id
    ∧ (Handler.HandleRequest sampleRegistry (some unknownToolReq)).id = none :=
  ⟨(responseId_echo sampleRegistry toolsListReq).1 rfl,
   (responseId_echo sampleRegistry unknownToolReq).2 (fun h => Option.noConfusion h)⟩

/-- C5: every response envelope the dispatcher produces — for decoded
requests on success and failure, and for undecodable bodies — populates
exactly one of the result and error fields: a result is present exactly
when the error is absent. -/
theorem response_result_xor_error :
    ∀ (tools : Registry) (body : Option MCPRequest),
      ((∃ v, (Handler.HandleRequest tools body).result = some v) ↔
        (Handler.HandleRequest tools body).error = none) := by
  intro tools body
  cases body with
  | none =>
    constructor
    · rintro ⟨v, hv⟩
      simp [Handler.HandleRequest, Handler.sendError] at hv
    · intro h
      simp [Handler.HandleRequest, Handler.sendError] at h
  | some req =>
    rcases handleRequest_decoded_cases tools req with ⟨e, hE⟩ | ⟨resp, hok, hE⟩
    · rw [hE]
      constructor
      · rintro ⟨v, hv⟩
        simp [Handler.sendError] at hv
      · intro h
        simp [Handler.sendError] at h
    · rw [hE]
      obtain ⟨-, -, hres, herr⟩ := dispatch_ok_shape tools req resp hok
      constructor
      · intro _
        exact herr
      · intro _
        exact hres

/-- The method switch forwards a tools/call request to handleToolsCall. -/
theorem dispatch_toolsCall (tools : Registry) (req : MCPRequest)
    (hm : req.method = "tools/call") :
    Handler.dispatch tools req = Handler.handleToolsCall tools req := by
  unfold Handler.dispatch
  rw [hm]
  rfl

/-- A tools/call whose params name an unregistered tool fails with the
"tool not found" error, whatever the arguments field holds. -/
theorem handleToolsCall_unknownTool (tools : Registry) (req : MCPRequest)
    (params : Args) (toolName : String)
    (hp : req.params = some (.obj params))
    (hn : params.lookup "name" = some (.str toolName))
    (hl : tools.lookup toolName = none) :
    Handler.handleToolsCall tools req = .error ("tool not found: " ++ toolName) := by
  unfold Handler.handleToolsCall
  rw [hp]
  dsimp only
  rw [hn]
  dsimp only
  rw [hl]

/-- C4: every handler failure on a decoded request is mapped to exactly
one error object with code -32601 and message "Method not found", whose
data carries the failing method and an error message string; and a
tools/call naming an unregistered tool always produces that error with a
message referencing the tool name (never a silent success). -/
theorem handlerFailure_error_shape :
    (∀ (tools : Registry) (req : MCPRequest) (err : MCPError),
        (Handler.HandleRequest tools (some req)).error = some err →
        err.code = -32601 ∧ err.message = "Method not found"
          ∧ ∃ msg, err.data = some { method := req.method, error := msg })
    ∧ (∀ (tools : Registry) (req : MCPRequest) (params : Args) (toolName : String),
        req.method = "tools/call" →
        req.params = some (.obj params) →
        params.lookup "name" = some (.str toolName) →
        tools.lookup toolName = none →
        (Handler.HandleRequest tools (some req) =
            Handler.sendError (-32601) "Method not found"
              (some { method := "tools/call", error := "tool not found: " ++ toolName })
          ∧ ∃ pre, "tool not found: " ++ toolName = pre ++ toolName)) := by
  constructor
  · intro tools req err h
    rcases handleRequest_decoded_cases tools req with ⟨e, hE⟩ | ⟨resp, hok, hE⟩
    · rw [hE] at h
      simp only [Handler.sendError, Option.some.injEq] at h
      rw [← h]
      exact ⟨rfl, rfl, e, rfl⟩
    · rw [hE] at h
      obtain ⟨-, -, -, herr⟩ := dispatch_ok_shape tools req resp hok
      rw [herr] at h
      cases h
  · intro tools req params toolName hm hp hn hl
    have hh : Handler.HandleRequest tools (some req) =
        match Handler.dispatch tools req with
        | .error e => Handler.sendError (-32601) "Method not found"
            (some { method := req.method, error := e })
        | .ok response => response := rfl
    have hd : Handler.dispatch tools req = .error ("tool not found: " ++ toolName) := by
      rw [dispatch_toolsCall tools req hm]
      exact handleToolsCall_unknownTool tools req params toolName hp hn hl
    refine ⟨?_, "tool not found: ", rfl⟩
    rw [hh, hd, hm]

/-- C4 witness: both parts applied to the concrete unknown-tool request
against the sample registry. -/
theorem handlerFailure_error_shape_witness :
    (sampleMethodNotFoundErr.code = -32601
      ∧ sampleMethodNotFoundErr.message = "Method not found"
      ∧ ∃ msg, sampleMethodNotFoundErr.data =
          some { method := unknownToolReq.method, error := msg })
    ∧ (Handler.HandleRequest sampleRegistry (some unknownToolReq) =
          Handler.sendError (-32601) "Method not found"
            (some { method := "tools/call", error := "tool not found: " ++ "fly_nope" })
        ∧ ∃ pre, "tool not found: " ++ "fly_nope" = pre ++ "fly_nope") :=
  ⟨handlerFailure_error_shape.1 sampleRegistry unknownToolReq sampleMethodNotFoundErr rfl,
   handlerFailure_error_shape.2 sampleRegistry unknownToolReq
     [("name", .str "fly_nope")] "fly_nope" rfl rfl rfl rfl⟩

/-- C6: when the basic app lookup succeeds but the machine enumeration
fails, GetAppStatus still returns an AppStatus — with machine count zero
and an empty machine-state map — and no error. -/
theorem getAppStatus_degrades (env : FlyEnv) (appName : String) (app : AppCompact)
    (e : String)
    (happ : env.getAppCompact appName = .ok app)
    (hm : env.listMachines appName = .error e) :
    ∃ st, Client.GetAppStatus env appName = .ok st
      ∧ st.machineCount = 0 ∧ st.machineStates = [] := by
  have heq : Client.GetAppStatus env appName =
      .ok { appName := appName, status := app.status, deployed := app.deployed
            machineCount := 0, machineStates := [], hostname := app.hostname
            updatedAt := env.now } := by
    unfold Client.GetAppStatus
    rw [happ]
    dsimp only
    rw [hm]
  exact ⟨_, heq, rfl, rfl⟩

/-- C6 witness: the degradation at the concrete environment whose
machines endpoint is down. -/
theorem getAppStatus_degrades_witness :
    ∃ st, Client.GetAppStatus flyEnvMachinesDown "demo" = .ok st
      ∧ st.machineCount = 0 ∧ st.machineStates = [] :=
  getAppStatus_degrades flyEnvMachinesDown "demo"
    { status := "running", deployed := true, hostname := "demo.fly.dev" }
    "machines api down" rfl rfl

/-- Unfolding equation of collectRestartErrors on a cons cell. -/
theorem collectRestartErrors_cons (env : FlyEnv) (appName : String)
    (machine : Machine) (rest : List Machine) :
    collectRestartErrors env appName (machine :: rest) =
      (match env.restartMachine appName machine.id with
        | some e => ("machine " ++ machine.id ++ ": " ++ e)
            :: collectRestartErrors env appName rest
        | none => collectRestartErrors env appName rest) := rfl

/-- Unfolding equation of restartSuccessCount on a cons cell. -/
theorem restartSuccessCount_cons (env : FlyEnv) (appName : String)
    (machine : Machine) (rest : List Machine) :
    restartSuccessCount env appName (machine :: rest) =
      (match env.restartMachine appName machine.id with
        | some _ => restartSuccessCount env appName rest
        | none => restartSuccessCount env appName rest + 1) := rfl

/-- The restart loop's foldl equals the specification-side error list and
success count, for any starting accumulator. -/
theorem restartFold_spec (env : FlyEnv) (appName : String) (machines : List Machine) :
    ∀ (errs : List String) (cnt : Nat),
      machines.foldl (Client.restartStep env appName) (errs, cnt) =
        (errs ++ collectRestartErrors env appName machines,
          cnt + restartSuccessCount env appName machines) := by
  induction machines with
  | nil =>
    intro errs cnt
    simp [collectRestartErrors, restartSuccessCount]
  | cons machine rest ih =>
    intro errs cnt
    cases hr : env.restartMachine appName machine.id with
    | some e =>
      have hstep : Client.restartStep env appName (errs, cnt) machine =
          (errs ++ ["machine " ++ machine.id ++ ": " ++ e], cnt) := by
        unfold Client.restartStep
        rw [hr]
      have hcoll : collectRestartErrors env appName (machine :: rest) =
          ("machine " ++ machine.id ++ ": " ++ e)
            :: collectRestartErrors env appName rest := by
        rw [collectRestartErrors_cons, hr]
      have hsucc : restartSuccessCount env appName (machine :: rest) =
          restartSuccessCount env appName rest := by
        rw [restartSuccessCount_cons, hr]
      rw [List.foldl_cons, hstep, ih, hcoll, hsucc]
      simp [List.append_assoc]
    | none =>
      have hstep : Client.restartStep env appName (errs, cnt) machine =
          (errs, cnt + 1) := by
        unfold Client.restartStep
        rw [hr]
      have hcoll : collectRestartErrors env appName (machine :: rest) =
          collectRestartErrors env appName rest := by
        rw [collectRestartErrors_cons, hr]
      have hsucc : restartSuccessCount env appName (machine :: rest) =
          restartSuccessCount env appName rest + 1 := by
        rw [restartSuccessCount_cons, hr]
      rw [List.foldl_cons, hstep, ih, hcoll, hsucc]
      simp only [Prod.mk.injEq]
      exact ⟨trivial, by omega⟩

/-- A machine list with one successful restart has positive success
count. -/
theorem restartSuccessCount_pos (env : FlyEnv) (appName : String) :
    ∀ (machines : List Machine),
      (∃ m ∈ machines, env.restartMachine appName m.id = none) →
      0 < restartSuccessCount env appName machines := by
  intro machines
  induction machines with
  | nil =>
    rintro ⟨m, hm, -⟩
    cases hm
  | cons machine rest ih =>
    rintro ⟨m, hm, hnone⟩
    rcases List.mem_cons.mp hm with rfl | hm2
    · have hEq : restartSuccessCount env appName (m :: rest) =
          restartSuccessCount env appName rest + 1 := by
        rw [restartSuccessCount_cons, hnone]
      omega
    · cases hr : env.restartMachine appName machine.id with
      | some e =>
        have hEq : restartSuccessCount env appName (machine :: rest) =
            restartSuccessCount env appName rest := by
          rw [restartSuccessCount_cons, hr]
        have hpos := ih ⟨m, hm2, hnone⟩
        omega
      | none =>
        have hEq : restartSuccessCount env appName (machine :: rest) =
            restartSuccessCount env appName rest + 1 := by
          rw [restartSuccessCount_cons, hr]
        omega

/-- When every restart fails the success count is zero. -/
theorem restartSuccessCount_zero (env : FlyEnv) (appName : String) :
    ∀ (machines : List Machine),
      (∀ m ∈ machines, (env.restartMachine appName m.id).isSome) →
      restartSuccessCount env appName machines = 0 := by
  intro machines
  induction machines with
  | nil =>
    intro _
    rfl
  | cons machine rest ih =>
    intro hall
    cases hr : env.restartMachine appName machine.id with
    | some e =>
      have hEq : restartSuccessCount env appName (machine :: rest) =
          restartSuccessCount env appName rest := by
        rw [restartSuccessCount_cons, hr]
      rw [hEq]
      exact ih (fun m hm => hall m (List.mem_cons_of_mem _ hm))
    | none =>
      have := hall machine (List.mem_cons_self _ _)
      rw [hr] at this
      cases this

/-- C7: with a non-empty machine list, RestartApp returns nil whenever at
least one machine restarts successfully, and a non-nil error exactly on
the path where no machine restarted. -/
theorem restartApp_partialFailure :
    ∀ (env : FlyEnv) (appName : String) (machines : List Machine),
      env.listMachines appName = .ok machines →
      machines ≠ [] →
      ((∃ m ∈ machines, env.restartMachine appName m.id = none) →
          Client.RestartApp env appName = none)
      ∧ ((∀ m ∈ machines, (env.restartMachine appName m.id).isSome) →
          (Client.RestartApp env appName).isSome) := by
  intro env appName machines hl hne
  have hlen : (machines.length == 0) = false := by
    simp [List.length_eq_zero, hne]
  have hexec : Client.RestartApp env appName =
      (if (collectRestartErrors env appName machines).length > 0 then
        if restartSuccessCount env appName machines == 0 then
          some ("failed to restart any machines: "
            ++ String.intercalate ", " (collectRestartErrors env appName machines))
        else none
      else none) := by
    unfold Client.RestartApp
    rw [hl]
    dsimp only
    rw [hlen, restartFold_spec env appName machines [] 0]
    simp
  constructor
  · intro hsucc
    have hpos := restartSuccessCount_pos env appName machines hsucc
    have hzero : (restartSuccessCount env appName machines == 0) = false := by
      simp
      omega
    rw [hexec, hzero]
    simp
  · intro hall
    have hzero : restartSuccessCount env appName machines = 0 :=
      restartSuccessCount_zero env appName machines hall
    have herrs : 0 < (collectRestartErrors env appName machines).length := by
      cases machines with
      | nil => exact absurd rfl hne
      | cons machine rest =>
        have hsome := hall machine (List.mem_cons_self _ _)
        rw [collectRestartErrors_cons]
        cases hr : env.restartMachine appName machine.id with
        | some e =>
          simp
        | none =>
          rw [hr] at hsome
          cases hsome
    rw [hexec, hzero]
    simp [herrs]

/-- C7 witness: the spec scenario of 2 of 3 machines succeeding returns
no error, applied at the concrete partial-restart environment. -/
theorem restartApp_partialFailure_witness :
    Client.RestartApp flyEnvPartialRestart "demo" = none :=
  (restartApp_partialFailure flyEnvPartialRestart "demo"
      [{ id := "m1", state := "started" }, { id := "m2", state := "started" },
        { id := "m3", state := "started" }] rfl (by decide)).1
    ⟨{ id := "m2", state := "started" }, by decide, rfl⟩

/-- C2 counterexample: with authorization granted, a valid app_name and
no confirm argument, the guidance ToolResult the restart tool returns
carries isError true, not the isError false the claim states (the
restart adapter is indeed not called and the Go error is nil, but the
conjunction fails on the isError flag). -/
theorem restartConfirmGuard_counterexample :
    ¬ ((AppRestartTool.Execute restartEnvAllowed argsNoConfirm).restartCalled = false
        ∧ (AppRestartTool.Execute restartEnvAllowed argsNoConfirm).goError = none
        ∧ ((AppRestartTool.Execute restartEnvAllowed argsNoConfirm).result.map
            ToolResult.isError) = some false) := by
  intro h
  have hv : ((AppRestartTool.Execute restartEnvAllowed argsNoConfirm).result.map
      ToolResult.isError) = some true := rfl
  rw [hv] at h
  exact absurd h.2.2 (by decide)

/-- C2 (amended): with authorization granted, a valid app_name and the
confirm argument absent, non-boolean, or false, the restart tool never
reaches the RestartApp adapter call, returns a nil Go error, and returns
the confirmation-guidance ToolResult — which carries isError true (the
business-failure convention), not isError false as the claim stated. -/
theorem restartConfirmGuard (env : RestartEnv) (args : Args) (appName : String)
    (hperm : Manager.ValidateRequest env.perms env.ctxUserID "restart" "app" = none)
    (hname : args.lookup "app_name" = some (.str appName))
    (hne : appName ≠ "")
    (hconf : args.lookup "confirm" ≠ some (.boolean true)) :
    (AppRestartTool.Execute env args).restartCalled = false
    ∧ (AppRestartTool.Execute env args).goError = none
    ∧ (AppRestartTool.Execute env args).result =
        some { content := [{ type := "text"
                             text := AppRestartTool.confirmGuidanceText appName
                             data := "" }]
               isError := true } := by
  unfold AppRestartTool.Execute
  rw [hperm]
  dsimp only
  rw [hname]
  dsimp only
  rw [if_neg hne]
  rcases hc : args.lookup "confirm" with _ | v
  · exact ⟨rfl, rfl, rfl⟩
  · cases v with
    | boolean b =>
      cases b with
      | true => exact absurd hc hconf
      | false => exact ⟨rfl, rfl, rfl⟩
    | null => exact ⟨rfl, rfl, rfl⟩
    | num n => exact ⟨rfl, rfl, rfl⟩
    | str s => exact ⟨rfl, rfl, rfl⟩
    | arr elems => exact ⟨rfl, rfl, rfl⟩
    | obj fields => exact ⟨rfl, rfl, rfl⟩

/-- C2 witness (for the amended statement): the authorized environment
with a healthy adapter and arguments lacking confirm. -/
theorem restartConfirmGuard_witness :
    (AppRestartTool.Execute restartEnvAllowed argsNoConfirm).restartCalled = false
    ∧ (AppRestartTool.Execute restartEnvAllowed argsNoConfirm).goError = none
    ∧ (AppRestartTool.Execute restartEnvAllowed argsNoConfirm).result =
        some { content := [{ type := "text"
                             text := AppRestartTool.confirmGuidanceText "my-app"
                             data := "" }]
               isError := true } :=
  restartConfirmGuard restartEnvAllowed argsNoConfirm "my-app" rfl rfl
    (by decide) (fun h => Option.noConfusion h)

/-- C8: with authorization granted, a valid app_name and confirm true,
if the pre-restart GetAppStatus check fails then the RestartApp adapter
call is never made and Execute returns a non-nil ToolResult with isError
true together with a nil Go error. -/
theorem restartStatusCheckFailure (env : RestartEnv) (args : Args) (appName e : String)
    (hperm : Manager.ValidateRequest env.perms env.ctxUserID "restart" "app" = none)
    (hname : args.lookup "app_name" = some (.str appName))
    (hne : appName ≠ "")
    (hconf : args.lookup "confirm" = some (.boolean true))
    (hstatus : Client.GetAppStatus env.fly appName = .error e) :
    (AppRestartTool.Execute env args).restartCalled = false
    ∧ (AppRestartTool.Execute env args).goError = none
    ∧ ∃ r, (AppRestartTool.Execute env args).result = some r ∧ r.isError = true := by
  unfold AppRestartTool.Execute
  rw [hperm]
  dsimp only
  rw [hname]
  dsimp only
  rw [if_neg hne]
  rw [hconf]
  dsimp only
  rw [hstatus]
  exact ⟨rfl, rfl, _, rfl, rfl⟩

/-- C8 witness: the environment whose status endpoint is down, with
confirm set to true. -/
theorem restartStatusCheckFailure_witness :
    (AppRestartTool.Execute restartEnvStatusDown argsConfirm).restartCalled = false
    ∧ (AppRestartTool.Execute restartEnvStatusDown argsConfirm).goError = none
    ∧ ∃ r, (AppRestartTool.Execute restartEnvStatusDown argsConfirm).result = some r
        ∧ r.isError = true :=
  restartStatusCheckFailure restartEnvStatusDown argsConfirm "my-app"
    "failed to get app status for my-app: api unreachable"
    rfl rfl (by decide) rfl rfl

/-- The ping message is the supplied one when it is a non-empty
string. -/
theorem msgArg_of_str (args : Args) (msg : String)
    (h : args.lookup "message" = some (.str msg)) (hne : msg ≠ "") :
    msgArg args = msg := by
  unfold msgArg
  rw [h]
  exact if_pos hne

/-- The ping message is the default when no non-empty string was
supplied. -/
theorem msgArg_default (args : Args)
    (hall : ∀ msg, args.lookup "message" = some (.str msg) → msg = "") :
    msgArg args = PingTool.defaultMessage := by
  unfold msgArg
  rcases hc : args.lookup "message" with _ | v
  · rfl
  · cases v with
    | str s =>
      have hs : s = "" := hall s hc
      subst hs
      simp
    | null => rfl
    | boolean b => rfl
    | num n => rfl
    | arr elems => rfl
    | obj fields => rfl

/-- C10: the ping tool's Execute is total: for every timestamp and every
arguments map it returns a nil Go error and a non-error ToolResult with
exactly one text content block whose text carries the message — the
supplied one when "message" is a non-empty string, the default when it
is absent, non-string, or empty — followed by the timestamp.  (The
embedding of PingTool.Execute takes no authorization input at all: the
source performs no authorization check.) -/
theorem pingExecute_total :
    ∀ (now : String) (args : Args),
      (PingTool.Execute now args).2 = none
      ∧ ∃ text,
          (PingTool.Execute now args).1 =
            some { content := [{ type := "text", text := text, data := "" }]
                   isError := false }
          ∧ (∃ pre, text = pre ++ now)
          ∧ (∀ msg, args.lookup "message" = some (.str msg) → msg ≠ "" →
              ∃ post, text = "Pong! " ++ msg ++ post)
          ∧ ((∀ msg, args.lookup "message" = some (.str msg) → msg = "") →
              ∃ post, text = "Pong! " ++ PingTool.defaultMessage ++ post) := by
  intro now args
  have hexec : PingTool.Execute now args =
      (some { content := [{ type := "text"
                            text := "Pong! " ++ msgArg args ++ "\nTimestamp: " ++ now
                            data := "" }]
              isError := false }, none) := rfl
  refine ⟨by rw [hexec], "Pong! " ++ msgArg args ++ "\nTimestamp: " ++ now,
    by rw [hexec], ⟨"Pong! " ++ msgArg args ++ "\nTimestamp: ", rfl⟩, ?_, ?_⟩
  · intro msg hmsg hne
    rw [msgArg_of_str args msg hmsg hne]
    exact ⟨"\nTimestamp: " ++ now, by rw [← String.append_assoc]⟩
  · intro hall
    rw [msgArg_default args hall]
    exact ⟨"\nTimestamp: " ++ now, by rw [← String.append_assoc]⟩

end FlyMCP
